import Mathlib

/-!
Shallow embedding of the diskop disk-usage browser (src/diskop.py).

The embedding keeps the source's names where Lean allows it.  The Python
globals `size_cache` (a dict from path to size in bytes), `size_queue`
(a FIFO queue of paths, with `None` as the terminating sentinel) and
`calculating` (the in-flight flag) become explicit state that is passed
and returned.  Filesystem observations (`os.scandir`, `os.path.isfile`,
file sizes, the `du -sk` subprocess, deletion outcomes) are parameters of
the embedded functions, since they are external collaborators of the
program; a call that can raise is modelled as returning an `Option` or
`Except` value.
-/

/-- The global `size_cache` dict: an association list from path to size in
bytes.  The most recent binding for a key shadows older ones, which models
dict overwrite. -/
abbrev Cache := List (String × Nat)

/-- `size_cache[path]` lookup (`path in size_cache` test plus read). -/
def cacheLookup (c : Cache) (p : String) : Option Nat :=
  List.lookup p c

/-- `size_cache[path] = v`: dict write (overwrite by shadowing). -/
def cachePut (c : Cache) (p : String) (v : Nat) : Cache :=
  (p, v) :: c

/-- `del size_cache[path]` (guarded by `if path in size_cache`, which the
unconditional filter also models: filtering an absent key is the identity). -/
def cacheEvict (c : Cache) (p : String) : Cache :=
  c.filter (fun e => e.1 != p)

/-- A filesystem node as `quick_size` and the recursive sizing observe it:
a file whose `stat`/`getsize` either yields a byte length or raises
(`Option Nat`), or a directory whose `scandir` either yields named children
or raises (`Option` of the child list). -/
inductive FSNode where
  | file : Option Nat → FSNode
  | dir : Option (List (String × FSNode)) → FSNode

/-- The contribution of one `scandir` entry inside the `quick_size` loop:
`if entry.is_file(): total += entry.stat().st_size`, with a failing `stat`
swallowed (`except: pass`), and non-file entries skipped. -/
def entryFileSize : FSNode → Nat
  | .file (some s) => s
  | _ => 0

/-- `quick_size(path)` from src/diskop.py lines 25-45: a file's byte length
(0 if `getsize` raises, via the outer `except`), else the sum of the sizes
of the immediate file children only; a failing `scandir` yields 0. -/
def quick_size : FSNode → Nat
  | .file (some s) => s
  | .file none => 0
  | .dir none => 0
  | .dir (some cs) => (cs.map fun c => entryFileSize c.2).sum

mutual

/-- The exact recursive size of a subtree: the sum of all file sizes under
it, nested subdirectories included (the spec's "exact size", §4.3 and the
glossary).  Inaccessible nodes contribute 0. -/
def recursiveSize : FSNode → Nat
  | .file (some s) => s
  | .file none => 0
  | .dir none => 0
  | .dir (some cs) => recursiveSizeChildren cs

/-- Sum of `recursiveSize` over a directory's children. -/
def recursiveSizeChildren : List (String × FSNode) → Nat
  | [] => 0
  | c :: rest => recursiveSize c.2 + recursiveSizeChildren rest

end

/-- The mutable globals of src/diskop.py lines 20-22: `size_cache`,
`size_queue` (entries are paths, `none` is the Python `None` sentinel) and
the `calculating` flag. -/
structure CalcState where
  cache : Cache
  queue : List (Option String)
  calculating : Bool
deriving DecidableEq

/-- The value the worker stores on a successful `du -sk path` run:
`int(result.stdout.split()[0]) * 1024` — the du figure is in whole KiB
(src/diskop.py line 68). -/
def duWrittenValue (kb : Nat) : Nat :=
  kb * 1024

/-- One path's processing inside the worker (src/diskop.py lines 60-70):
run `du -sk path`; on success (`returncode == 0`, modelled as the du
collaborator returning `some kb`) write `kb * 1024` into the cache; on any
failure (`except: pass`) leave the cache untouched. -/
def duWrite (du : String → Option Nat) (c : Cache) (p : String) : Cache :=
  match du p with
  | some kb => cachePut c p (duWrittenValue kb)
  | none => c

/-- The worker loop of `calculate_sizes_async` (src/diskop.py lines 53-74):
dequeue with `get_nowait` until the queue is empty (the `Empty` exception
breaks the loop) or the `None` sentinel is met; process each path with
`duWrite`.  Returns the cache after the loop. -/
def workerLoop (du : String → Option Nat) : List (Option String) → Cache → Cache
  | [], c => c
  | none :: _, c => c
  | some p :: rest, c => workerLoop du rest (duWrite du c p)

/-- The synchronous part of `calculate_sizes_async(paths)` (src/diskop.py
lines 50-87, before the worker thread starts): set `calculating = True`,
drain the existing queue (lines 77-82 empty it completely), then enqueue
every path followed by the `None` sentinel.  Clearing then refilling equals
replacing the queue outright.  Note there is no check of the `calculating`
flag here: the function overwrites whatever queue contents existed. -/
def submitPhase (paths : List String) (s : CalcState) : CalcState :=
  { s with calculating := true, queue := paths.map some ++ [none] }

/-- `calculate_sizes_async(paths)` followed by the spawned worker running to
completion (src/diskop.py lines 48-91).  The worker is the sole consumer of
the queue and the whole queue plus sentinel is enqueued before the thread
starts, so its effect on the cache equals this sequential drain; after the
loop the worker sets `calculating = False` (line 74). -/
def calculate_sizes_async (du : String → Option Nat) (paths : List String)
    (s : CalcState) : CalcState :=
  let s1 := submitPhase paths s
  { cache := workerLoop du s1.queue s1.cache, queue := [], calculating := false }

/-- Progress counters `{total, processed}` of the spec's Progress Tracker. -/
structure Progress where
  total : Nat
  processed : Nat
deriving DecidableEq

/-- Modelled from the spec: src/diskop.py has no progress counters; spec
§4.3 prescribes that `processed` is incremented by exactly one after each
item the worker dequeues and processes (success or failure), so after a
drain `processed` equals the number of non-sentinel items dequeued before
the loop stopped. -/
def drainedCount : List (Option String) → Nat
  | [] => 0
  | none :: _ => 0
  | some _ :: rest => drainedCount rest + 1

/-- Modelled from the spec: the Progress Tracker snapshot after
`submit(paths)` has finished draining — §4.3 sets `total` to `len(paths)`
at submit time and `processed` counts the items drained from the queue the
submit built (each path, then the sentinel). -/
def snapshotAfterDrain (paths : List String) : Progress :=
  { total := paths.length, processed := drainedCount (paths.map some ++ [none]) }

/-- `get_directory_size_in_bytes(path)` (src/diskop.py lines 94-103), the
spec's `get_or_estimate`: return the cached value when present, else
compute the quick estimate, store it and return it.  The quick estimator is
a parameter (it reads the filesystem); the cache is passed and returned. -/
def get_directory_size_in_bytes (quick : String → Nat) (c : Cache) (p : String) :
    Nat × Cache :=
  match cacheLookup c p with
  | some v => (v, c)
  | none => (quick p, cachePut c p (quick p))

/-- One `os.scandir(parent_dir)` entry as `get_items_with_size` observes it:
its name, whether `entry.is_symlink()`, whether `entry.is_dir(follow_symlinks=False)`,
and whether the per-entry body runs without raising (`ok = false` models the
`except Exception: continue` that skips an inaccessible item). -/
structure ScanEntry where
  name : String
  isSymlink : Bool
  isDir : Bool
  ok : Bool
deriving DecidableEq

/-- One tuple `(name, full_path, size_in_bytes, item_type)` of the listing;
`type` is the Python string `"DIR"` or `"FILE"`. -/
structure Item where
  name : String
  path : String
  size : Nat
  type : String
deriving DecidableEq

/-- The deny-list of src/diskop.py line 122: `['Library', 'System']`. -/
def denyList : List String :=
  ["Library", "System"]

/-- `entry.name.startswith('.')`: the name's first character is a dot. -/
def dotName (s : String) : Bool :=
  s.data.head? == some '.'

/-- `os.path.join(parent_dir, entry.name)` for an absolute parent. -/
def joinPath (parent name : String) : String :=
  parent ++ "/" ++ name

/-- The name-based skip of src/diskop.py line 122:
`entry.name.startswith('.') or entry.name in ['Library', 'System']`. -/
def skipName (e : ScanEntry) : Bool :=
  dotName e.name || denyList.contains e.name

/-- The entries the collection loop keeps: the per-entry body succeeded, the
name-based skip did not fire, and the entry is not a symbolic link. -/
def keptEntry (e : ScanEntry) : Bool :=
  e.ok && !skipName e && !e.isSymlink

/-- The collection loop of `get_items_with_size` (src/diskop.py lines
119-136), threading the cache through the `get_directory_size_in_bytes`
calls: returns the `entries` list, the `paths_to_calculate` list (every
kept directory's full path, in scan order) and the final cache. -/
def collectEntries (parent : String) (quick : String → Nat) :
    List ScanEntry → Cache → List Item × List String × Cache
  | [], c => ([], [], c)
  | e :: rest, c =>
    if !e.ok then collectEntries parent quick rest c
    else if skipName e then collectEntries parent quick rest c
    else if e.isSymlink then collectEntries parent quick rest c
    else
      let t := if e.isDir then "DIR" else "FILE"
      let full := joinPath parent e.name
      let r1 := get_directory_size_in_bytes quick c full
      let r := collectEntries parent quick rest r1.2
      (⟨e.name, full, r1.1, t⟩ :: r.1,
       (if e.isDir then [full] else []) ++ r.2.1,
       r.2.2)

/-- The Python sort key `lambda x: (-x[2], x[0].lower())` as a boolean
"comes no later than" relation: larger size first, ties by case-insensitive
ascending name. -/
def entryLe (a b : Item) : Bool :=
  decide (b.size < a.size) ||
    (a.size == b.size && decide (a.name.toLower ≤ b.name.toLower))

/-- The sort of src/diskop.py lines 138-143: the DIR entries sorted by
`entryLe`, then the FILE entries sorted by `entryLe`. -/
def sortedItems (entries : List Item) : List Item :=
  (entries.filter fun it => it.type == "DIR").mergeSort entryLe ++
    (entries.filter fun it => it.type == "FILE").mergeSort entryLe

/-- `get_items_with_size(parent_dir)` (src/diskop.py lines 111-151).  The
`scan` parameter is the outcome of `os.scandir(parent_dir)`: `none` when it
raises (the outer `except` returns the empty listing with the state as it
was).  Returns the sorted items and the new state: when
`paths_to_calculate` is non-empty and `calculating` is false, the
submission phase of `calculate_sizes_async` runs (line 146-147); the
spawned worker drains later and is modelled separately. -/
def get_items_with_size (parent : String) (scan : Option (List ScanEntry))
    (quick : String → Nat) (st : CalcState) : List Item × CalcState :=
  match scan with
  | none => ([], st)
  | some es =>
    let r := collectEntries parent quick es st.cache
    let st1 : CalcState := { st with cache := r.2.2 }
    (sortedItems r.1,
     if !r.2.1.isEmpty && !st.calculating then submitPhase r.2.1 st1 else st1)

/-- `delete_item(path)` (src/diskop.py lines 320-333).  The removal outcome
(`shutil.rmtree` / `os.remove`) is a parameter: `Except.ok` when the
filesystem deletion succeeds, `Except.error msg` when it raises.  Returns
the boolean result, the cache after the call, and the printed error message
when there is one. -/
def delete_item (removal : Except String Unit) (c : Cache) (p : String) :
    Bool × Cache × Option String :=
  match removal with
  | .ok _ => (true, cacheEvict c p, none)
  | .error e => (false, c, some ("Error deleting " ++ p ++ ": " ++ e))

/-- The order the spec claims for a listing: every DIR entry precedes every
FILE entry, and inside one group sizes descend with ties broken by
case-insensitive ascending name. -/
def dispOrder (a b : Item) : Prop :=
  (a.type = "DIR" ∧ b.type = "FILE") ∨
    (a.type = b.type ∧
      (b.size < a.size ∨ (a.size = b.size ∧ a.name.toLower ≤ b.name.toLower)))

/-- The spec's §8 scenario directory: `/tmp/a` holds the single file `f` of
100 bytes — its exact recursive size is 100 bytes. -/
def c4dir : FSNode :=
  .dir (some [("f", .file (some 100))])

/-- A scandir entry for a plain accessible child directory named `d`. -/
def c5entry : ScanEntry :=
  { name := "d", isSymlink := false, isDir := true, ok := true }

/-- A cache that already holds a size for the child directory `/r/d`. -/
def c5cache : Cache :=
  [("/r/d", 5)]

/-! ## Cache lemmas -/

theorem cacheLookup_cachePut_self (c : Cache) (p : String) (v : Nat) :
    cacheLookup (cachePut c p v) p = some v := by
  simp [cacheLookup, cachePut, List.lookup]

theorem cacheLookup_cachePut_ne (c : Cache) (p q : String) (v : Nat) (h : q ≠ p) :
    cacheLookup (cachePut c p v) q = cacheLookup c q := by
  have hb : (q == p) = false := by simp [h]
  simp [cacheLookup, cachePut, List.lookup, hb]

theorem cacheLookup_cachePut_isSome (c : Cache) (p q : String) (v : Nat)
    (h : (cacheLookup c q).isSome) : (cacheLookup (cachePut c p v) q).isSome := by
  by_cases hq : q = p
  · subst hq; simp [cacheLookup_cachePut_self]
  · rwa [cacheLookup_cachePut_ne _ _ _ _ hq]

theorem cacheLookup_cacheEvict_self (c : Cache) (p : String) :
    cacheLookup (cacheEvict c p) p = none := by
  induction c with
  | nil => rfl
  | cons e rest ih =>
    by_cases h : e.1 = p
    · simpa [cacheEvict, List.filter_cons, h] using ih
    · have hb : (e.1 != p) = true := by simp [h]
      have hpq : (p == e.1) = false := by simp [Ne.symm h]
      simpa [cacheEvict, List.filter_cons, hb, cacheLookup, List.lookup, hpq] using ih

theorem cacheLookup_cacheEvict_ne (c : Cache) (p q : String) (h : q ≠ p) :
    cacheLookup (cacheEvict c p) q = cacheLookup c q := by
  induction c with
  | nil => rfl
  | cons e rest ih =>
    simp only [cacheEvict, cacheLookup] at ih ⊢
    by_cases he : e.1 = p
    · have hb : (e.1 != p) = false := by simp [he]
      have hq : (q == e.1) = false := by simp [he, h]
      simp [List.filter_cons, hb, List.lookup, hq, ih]
    · have hb : (e.1 != p) = true := by simp [he]
      cases hqe : q == e.1 with
      | true => simp [List.filter_cons, hb, List.lookup, hqe]
      | false => simp [List.filter_cons, hb, List.lookup, hqe, ih]

/-! ## Worker-loop lemmas -/

theorem duWrite_self (du : String → Option Nat) (c : Cache) (p : String) (kb : Nat)
    (h : du p = some kb) :
    cacheLookup (duWrite du c p) p = some (duWrittenValue kb) := by
  simp [duWrite, h, cacheLookup_cachePut_self]

theorem duWrite_isSome (du : String → Option Nat) (c : Cache) (p q : String)
    (h : (cacheLookup c q).isSome) : (cacheLookup (duWrite du c p) q).isSome := by
  unfold duWrite
  cases du p with
  | none => exact h
  | some kb => exact cacheLookup_cachePut_isSome _ _ _ _ h

theorem workerLoop_isSome_preserved (du : String → Option Nat) :
    ∀ (q : List (Option String)) (c : Cache) (p : String),
      (cacheLookup c p).isSome → (cacheLookup (workerLoop du q c) p).isSome := by
  intro q
  induction q with
  | nil => intro c p h; exact h
  | cons hd tl ih =>
    intro c p h
    cases hd with
    | none => exact h
    | some x => exact ih _ _ (duWrite_isSome du c x p h)

theorem workerLoop_lookup_of_du_none (du : String → Option Nat) (pbad : String)
    (h : du pbad = none) :
    ∀ (q : List (Option String)) (c : Cache),
      cacheLookup (workerLoop du q c) pbad = cacheLookup c pbad := by
  intro q
  induction q with
  | nil => intro c; rfl
  | cons hd tl ih =>
    intro c
    cases hd with
    | none => rfl
    | some p =>
      show cacheLookup (workerLoop du tl (duWrite du c p)) pbad = cacheLookup c pbad
      rw [ih]
      unfold duWrite
      cases hdu : du p with
      | none => rfl
      | some kb =>
        apply cacheLookup_cachePut_ne
        intro hqp
        rw [hqp, hdu] at h
        cases h

theorem workerLoop_present (du : String → Option Nat) :
    ∀ (ps : List String) (c : Cache) (p : String), p ∈ ps → (du p).isSome →
      (cacheLookup (workerLoop du (ps.map some ++ [none]) c) p).isSome := by
  intro ps
  induction ps with
  | nil => intro c p h; cases h
  | cons hd tl ih =>
    intro c p hmem hdu
    rw [List.map_cons, List.cons_append]
    show (cacheLookup (workerLoop du (tl.map some ++ [none]) (duWrite du c hd)) p).isSome
    rcases List.mem_cons.mp hmem with rfl | htl
    · apply workerLoop_isSome_preserved
      obtain ⟨kb, hkb⟩ := Option.isSome_iff_exists.mp hdu
      rw [duWrite_self du c p kb hkb]
      rfl
    · exact ih _ p htl hdu

theorem drainedCount_eq (ps : List String) :
    drainedCount (ps.map some ++ [none]) = ps.length := by
  induction ps with
  | nil => rfl
  | cons h t ih => simp [drainedCount, ih]

/-! ## Claim theorems: background calculator and cache -/

/-- C1 counterexample: with the cohort `["p"]` still in flight
(`calculating = true`, its path and sentinel pending in the queue), a
second call to `calculate_sizes_async ["q"]` is not dropped: its
synchronous phase replaces the pending queue contents, and its worker adds
`q` to the size cache. -/
theorem second_submit_replaces_cohort :
    (submitPhase ["q"] ⟨[], [some "p", none], true⟩).queue ≠ [some "p", none] ∧
    cacheLookup (calculate_sizes_async (fun _ => some 1) ["q"]
        ⟨[], [some "p", none], true⟩).cache "q" = some (duWrittenValue 1) := by
  constructor
  · decide
  · rfl

/-- C1 amended: the drop-while-busy guarantee is enforced at the call site,
not inside `calculate_sizes_async`: a listing pass that finds
`calculating = true` never submits, so the in-flight cohort's queue is
untouched and the flag stays set; `calculate_sizes_async` itself checks
nothing and, called directly while in flight, replaces the pending queue
(see the counterexample). -/
theorem listing_never_submits_while_inflight :
    ∀ (parent : String) (scan : Option (List ScanEntry)) (quick : String → Nat)
      (cache : Cache) (queue : List (Option String)),
      (get_items_with_size parent scan quick ⟨cache, queue, true⟩).2.queue = queue ∧
      (get_items_with_size parent scan quick ⟨cache, queue, true⟩).2.calculating = true := by
  intro parent scan quick cache queue
  cases scan with
  | none => exact ⟨rfl, rfl⟩
  | some es => simp [get_items_with_size]

/-- C2: after `submit([p1,...,pn])` finishes draining its queue, the
Progress Tracker snapshot (modelled from the spec — the code has no
counters) equals `{total := n, processed := n}`, and the size cache holds
an entry for every submitted path that was accessible (du succeeded) at
computation time. -/
theorem drain_completes_progress_and_cache :
    ∀ (du : String → Option Nat) (paths : List String) (s : CalcState),
      snapshotAfterDrain paths = ⟨paths.length, paths.length⟩ ∧
      ∀ p ∈ paths, (du p).isSome →
        (cacheLookup (calculate_sizes_async du paths s).cache p).isSome := by
  intro du paths s
  constructor
  · simp [snapshotAfterDrain, drainedCount_eq]
  · intro p hp hdu
    simpa [calculate_sizes_async, submitPhase] using
      workerLoop_present du paths s.cache p hp hdu

/-- C3: when the exact size computation fails for one path of the cohort
(`du` yields nothing for it), the worker leaves that path's cache entry
exactly as it was — absent if it was absent — and still processes the
remaining paths of the cohort: the per-item failure is never fatal. -/
theorem worker_soft_failure :
    ∀ (du : String → Option Nat) (c : Cache) (ps1 ps2 : List String) (pbad : String),
      du pbad = none →
      cacheLookup (workerLoop du ((ps1 ++ pbad :: ps2).map some ++ [none]) c) pbad
          = cacheLookup c pbad ∧
      ∀ q ∈ ps2, (du q).isSome →
        (cacheLookup (workerLoop du ((ps1 ++ pbad :: ps2).map some ++ [none]) c) q).isSome := by
  intro du c ps1 ps2 pbad h
  constructor
  · exact workerLoop_lookup_of_du_none du pbad h _ c
  · intro q hq hdu
    exact workerLoop_present du _ c q (by simp [hq]) hdu

/-- C3 witness: a cohort `["bad", "ok"]` whose first path fails and second
succeeds, on an empty cache. -/
theorem worker_soft_failure_witness :
    cacheLookup (workerLoop (fun p => if p == "bad" then none else some 2)
        (([] ++ "bad" :: ["ok"]).map some ++ [none]) []) "bad"
      = cacheLookup ([] : Cache) "bad" ∧
    ∀ q ∈ ["ok"], ((fun p : String => if p == "bad" then none else some 2) q).isSome →
      (cacheLookup (workerLoop (fun p => if p == "bad" then none else some 2)
          (([] ++ "bad" :: ["ok"]).map some ++ [none]) []) q).isSome :=
  worker_soft_failure (fun p => if p == "bad" then none else some 2) [] [] ["ok"] "bad" rfl

/-- C4 counterexample: the worker writes `du`'s KiB figure times 1024, so
for the directory `c4dir` — one file of 100 bytes, exact recursive size
100 — no du outcome whatsoever can make the cached value equal the exact
recursive size. -/
theorem du_value_misses_exact_size :
    recursiveSize c4dir = 100 ∧
    ¬ ∃ kb : Nat,
        cacheLookup (duWrite (fun _ => some kb) [] "/tmp/a/b") "/tmp/a/b"
          = some (recursiveSize c4dir) := by
  have h100 : recursiveSize c4dir = 100 := by
    simp [c4dir, recursiveSize, recursiveSizeChildren]
  refine ⟨h100, ?_⟩
  rintro ⟨kb, h⟩
  rw [h100, duWrite_self (fun _ => some kb) [] "/tmp/a/b" kb rfl] at h
  have hv : duWrittenValue kb = 100 := Option.some.inj h
  unfold duWrittenValue at hv
  omega

/-- C4 amended: on success the worker stores the `du -sk` disk-usage
figure scaled from KiB to bytes (`kb * 1024`) — a block-granular aggregate
that is always a multiple of 1024, not the byte-exact sum of the file
sizes under the subtree (and for an empty directory it is whatever du
reports, not necessarily 0). -/
theorem du_success_writes_scaled_kib :
    ∀ (du : String → Option Nat) (c : Cache) (p : String) (kb : Nat),
      du p = some kb →
      cacheLookup (duWrite du c p) p = some (duWrittenValue kb) ∧
      1024 ∣ duWrittenValue kb := by
  intro du c p kb h
  exact ⟨duWrite_self du c p kb h, ⟨kb, by unfold duWrittenValue; ring⟩⟩

/-- C4 amended witness: a du run reporting 4 KiB for path `/e`. -/
theorem du_success_writes_scaled_kib_witness :
    cacheLookup (duWrite (fun _ => some 4) [] "/e") "/e" = some (duWrittenValue 4) ∧
    1024 ∣ duWrittenValue 4 :=
  du_success_writes_scaled_kib (fun _ => some 4) [] "/e" 4 rfl

/-- C6: `get_directory_size_in_bytes` (the spec's `get_or_estimate`) is
idempotent — a repeated call with no intervening put returns the same
value and leaves the cache unchanged — and when no cached value was
present the first call stores the quick estimate. -/
theorem get_or_estimate_idempotent :
    ∀ (quick : String → Nat) (c : Cache) (p : String),
      (get_directory_size_in_bytes quick (get_directory_size_in_bytes quick c p).2 p).1
          = (get_directory_size_in_bytes quick c p).1 ∧
      (get_directory_size_in_bytes quick (get_directory_size_in_bytes quick c p).2 p).2
          = (get_directory_size_in_bytes quick c p).2 ∧
      (cacheLookup c p = none →
        cacheLookup (get_directory_size_in_bytes quick c p).2 p = some (quick p) ∧
        (get_directory_size_in_bytes quick c p).1 = quick p) := by
  intro quick c p
  cases hc : cacheLookup c p with
  | some v => simp [get_directory_size_in_bytes, hc]
  | none => simp [get_directory_size_in_bytes, hc, cacheLookup_cachePut_self]

/-- C8: the quick estimator returns a file's byte length, returns 0 when
the file's size cannot be read or the directory cannot be scanned, and for
a directory sums the sizes of its immediate file children only: appending
a subdirectory child — whatever that subtree holds — never changes the
estimate, appending an accessible file child adds exactly its size, and
appending an unreadable file child adds 0. -/
theorem quick_size_shallow :
    ∀ (s : Nat) (cs : List (String × FSNode)) (nm : String)
      (gs : Option (List (String × FSNode))) (sz : Nat),
      quick_size (.file (some s)) = s ∧
      quick_size (.file none) = 0 ∧
      quick_size (.dir none) = 0 ∧
      quick_size (.dir (some (cs ++ [(nm, .dir gs)]))) = quick_size (.dir (some cs)) ∧
      quick_size (.dir (some (cs ++ [(nm, .file (some sz))])))
          = quick_size (.dir (some cs)) + sz ∧
      quick_size (.dir (some (cs ++ [(nm, .file none)]))) = quick_size (.dir (some cs)) := by
  intro s cs nm gs sz
  refine ⟨rfl, rfl, rfl, ?_, ?_, ?_⟩ <;> simp [quick_size, entryFileSize]

/-- C9: `delete_item` returns a boolean: on a successful removal it returns
true, evicts exactly the deleted path's cache entry and prints no error; on
a failing removal it returns false together with the human-readable
message, attempts nothing further, and leaves the cache untouched. -/
theorem delete_item_reports_and_evicts :
    ∀ (removal : Except String Unit) (c : Cache) (p : String),
      (removal = Except.ok () →
        (delete_item removal c p).1 = true ∧
        cacheLookup (delete_item removal c p).2.1 p = none ∧
        (delete_item removal c p).2.2 = none ∧
        ∀ q, q ≠ p → cacheLookup (delete_item removal c p).2.1 q = cacheLookup c q) ∧
      (∀ msg, removal = Except.error msg →
        (delete_item removal c p).1 = false ∧
        (delete_item removal c p).2.1 = c ∧
        (delete_item removal c p).2.2 = some ("Error deleting " ++ p ++ ": " ++ msg)) := by
  intro removal c p
  cases removal with
  | ok u =>
    refine ⟨fun _ => ⟨rfl, cacheLookup_cacheEvict_self c p, rfl, ?_⟩, fun msg h => (nomatch h)⟩
    intro q hq
    exact cacheLookup_cacheEvict_ne c p q hq
  | error e =>
    refine ⟨fun h => (nomatch h), fun msg h => ?_⟩
    cases h
    exact ⟨rfl, rfl, rfl⟩

/-! ## Listing lemmas -/

theorem collectEntries_paths (parent : String) (quick : String → Nat) :
    ∀ (es : List ScanEntry) (c : Cache),
      (collectEntries parent quick es c).2.1 =
        ((es.filter keptEntry).filter fun e => e.isDir).map fun e => joinPath parent e.name := by
  intro es
  induction es with
  | nil => intro c; rfl
  | cons e rest ih =>
    intro c
    cases hok : e.ok with
    | false => simp [collectEntries, hok, keptEntry, List.filter_cons, ih c]
    | true =>
      cases hskip : skipName e with
      | true => simp [collectEntries, hok, hskip, keptEntry, List.filter_cons, ih c]
      | false =>
        cases hsym : e.isSymlink with
        | true => simp [collectEntries, hok, hskip, hsym, keptEntry, List.filter_cons, ih c]
        | false =>
          cases hdir : e.isDir with
          | false => simp [collectEntries, hok, hskip, hsym, hdir, keptEntry, List.filter_cons, ih]
          | true => simp [collectEntries, hok, hskip, hsym, hdir, keptEntry, List.filter_cons, ih]

theorem collectEntries_items_mem (parent : String) (quick : String → Nat) :
    ∀ (es : List ScanEntry) (c : Cache) (it : Item),
      it ∈ (collectEntries parent quick es c).1 →
      ∃ e ∈ es, it.name = e.name ∧ keptEntry e = true := by
  intro es
  induction es with
  | nil =>
    intro c it h
    exact absurd h (List.not_mem_nil it)
  | cons e rest ih =>
    intro c it h
    cases hok : e.ok with
    | false =>
      simp only [collectEntries, hok, Bool.not_false, if_true] at h
      obtain ⟨e2, he2, hn, hk⟩ := ih c it h
      exact ⟨e2, List.mem_cons_of_mem e he2, hn, hk⟩
    | true =>
      cases hskip : skipName e with
      | true =>
        simp only [collectEntries, hok, hskip, Bool.not_true, if_false, if_true] at h
        obtain ⟨e2, he2, hn, hk⟩ := ih c it h
        exact ⟨e2, List.mem_cons_of_mem e he2, hn, hk⟩
      | false =>
        cases hsym : e.isSymlink with
        | true =>
          simp only [collectEntries, hok, hskip, hsym, Bool.not_true, if_false, if_true] at h
          obtain ⟨e2, he2, hn, hk⟩ := ih c it h
          exact ⟨e2, List.mem_cons_of_mem e he2, hn, hk⟩
        | false =>
          simp only [collectEntries, hok, hskip, hsym, Bool.not_true, Bool.not_false,
            if_false, if_true] at h
          rcases List.mem_cons.mp h with heq | htl
          · refine ⟨e, List.mem_cons_self e rest, ?_, ?_⟩
            · rw [heq]
            · simp [keptEntry, hok, hskip, hsym]
          · obtain ⟨e2, he2, hn, hk⟩ := ih _ it htl
            exact ⟨e2, List.mem_cons_of_mem e he2, hn, hk⟩

theorem mem_sortedItems (l : List Item) (it : Item) (h : it ∈ sortedItems l) : it ∈ l := by
  rcases List.mem_append.mp h with h1 | h1 <;>
    exact (List.mem_filter.mp (List.mem_mergeSort.mp h1)).1

theorem keptEntry_fields (e : ScanEntry) (h : keptEntry e = true) :
    e.ok = true ∧ dotName e.name = false ∧ denyList.contains e.name = false ∧
      e.isSymlink = false := by
  simp only [keptEntry, skipName, Bool.and_eq_true, Bool.not_eq_true',
    Bool.or_eq_false_iff] at h
  exact ⟨h.1.1, h.1.2.1, h.1.2.2, h.2⟩

theorem entryLe_trans :
    ∀ a b c : Item, entryLe a b = true → entryLe b c = true → entryLe a c = true := by
  intro a b c hab hbc
  simp only [entryLe, Bool.or_eq_true, Bool.and_eq_true, decide_eq_true_eq,
    beq_iff_eq] at hab hbc ⊢
  rcases hab with h1 | ⟨h1, h1n⟩ <;> rcases hbc with h2 | ⟨h2, h2n⟩
  · exact Or.inl (by omega)
  · exact Or.inl (by omega)
  · exact Or.inl (by omega)
  · exact Or.inr ⟨by omega, le_trans h1n h2n⟩

theorem entryLe_total : ∀ a b : Item, (entryLe a b || entryLe b a) = true := by
  intro a b
  simp only [entryLe, Bool.or_eq_true, Bool.and_eq_true, decide_eq_true_eq, beq_iff_eq]
  rcases lt_trichotomy a.size b.size with h | h | h
  · exact Or.inr (Or.inl h)
  · rcases le_total a.name.toLower b.name.toLower with hn | hn
    · exact Or.inl (Or.inr ⟨h, hn⟩)
    · exact Or.inr (Or.inr ⟨h.symm, hn⟩)
  · exact Or.inl (Or.inl h)

theorem mem_mergeSort_filter_type (l : List Item) (t : String) (a : Item)
    (h : a ∈ (l.filter fun it => it.type == t).mergeSort entryLe) : a.type = t := by
  have h2 := (List.mem_filter.mp (List.mem_mergeSort.mp h)).2
  simpa using h2

theorem sortedItems_pairwise (l : List Item) : (sortedItems l).Pairwise dispOrder := by
  unfold sortedItems
  refine List.pairwise_append.mpr ⟨?_, ?_, ?_⟩
  · have hs := List.sorted_mergeSort entryLe_trans entryLe_total
      (l.filter fun it => it.type == "DIR")
    refine hs.imp_of_mem ?_
    intro a b ha hb hab
    have hA := mem_mergeSort_filter_type l "DIR" a ha
    have hB := mem_mergeSort_filter_type l "DIR" b hb
    refine Or.inr ⟨hA.trans hB.symm, ?_⟩
    simpa only [entryLe, Bool.or_eq_true, Bool.and_eq_true, decide_eq_true_eq,
      beq_iff_eq] using hab
  · have hs := List.sorted_mergeSort entryLe_trans entryLe_total
      (l.filter fun it => it.type == "FILE")
    refine hs.imp_of_mem ?_
    intro a b ha hb hab
    have hA := mem_mergeSort_filter_type l "FILE" a ha
    have hB := mem_mergeSort_filter_type l "FILE" b hb
    refine Or.inr ⟨hA.trans hB.symm, ?_⟩
    simpa only [entryLe, Bool.or_eq_true, Bool.and_eq_true, decide_eq_true_eq,
      beq_iff_eq] using hab
  · intro a ha b hb
    exact Or.inl ⟨mem_mergeSort_filter_type l "DIR" a ha,
      mem_mergeSort_filter_type l "FILE" b hb⟩

/-! ## Claim theorems: listing builder -/

/-- C5 counterexample: for a parent `/r` with the single accessible child
directory `d` whose full path `/r/d` already has a cached size, the
collection loop still puts `/r/d` into `paths_to_calculate`, and the
listing pass (no calculation in flight) enqueues it for recalculation. -/
theorem cached_dir_still_submitted :
    cacheLookup c5cache "/r/d" = some 5 ∧
    "/r/d" ∈ (collectEntries "/r" (fun _ => 0) [c5entry] c5cache).2.1 ∧
    (get_items_with_size "/r" (some [c5entry]) (fun _ => 0) ⟨c5cache, [], false⟩).2.queue
      = [some "/r/d", none] := by
  refine ⟨rfl, by decide, by decide⟩

/-- C5 amended: the set of paths submitted by a listing pass is exactly the
kept (accessible, non-hidden, non-deny-listed, non-symlink) child
directories — whether or not a cached size is present: the loop appends
every such directory before consulting the cache, and the resulting set
does not depend on the cache at all. -/
theorem submitted_paths_are_all_kept_dirs :
    ∀ (parent : String) (quick : String → Nat) (es : List ScanEntry) (c1 c2 : Cache),
      (collectEntries parent quick es c1).2.1 =
        ((es.filter keptEntry).filter fun e => e.isDir).map (fun e => joinPath parent e.name) ∧
      (collectEntries parent quick es c1).2.1 = (collectEntries parent quick es c2).2.1 := by
  intro parent quick es c1 c2
  refine ⟨collectEntries_paths parent quick es c1, ?_⟩
  rw [collectEntries_paths parent quick es c1, collectEntries_paths parent quick es c2]

/-- C7: every listing is sorted — all DIR entries precede all FILE
entries, and inside each group sizes descend with ties broken by
case-insensitive ascending name. -/
theorem listing_sorted :
    ∀ (parent : String) (scan : Option (List ScanEntry)) (quick : String → Nat)
      (st : CalcState),
      ((get_items_with_size parent scan quick st).1).Pairwise dispOrder := by
  intro parent scan quick st
  cases scan with
  | none => exact List.Pairwise.nil
  | some es => exact sortedItems_pairwise _

/-- C10: a listing never contains an entry whose name starts with a dot or
is on the deny-list (hidden and system entries are silently omitted, as
are symbolic links), and every path collected for background size
calculation comes from a non-hidden, non-deny-listed, non-symlink child
directory. -/
theorem hidden_entries_omitted :
    ∀ (parent : String) (scan : Option (List ScanEntry)) (quick : String → Nat)
      (st : CalcState),
      (∀ it ∈ (get_items_with_size parent scan quick st).1,
        dotName it.name = false ∧ denyList.contains it.name = false) ∧
      (∀ es, scan = some es →
        ∀ p ∈ (collectEntries parent quick es st.cache).2.1,
          ∃ e ∈ es, dotName e.name = false ∧ denyList.contains e.name = false ∧
            e.isSymlink = false ∧ e.isDir = true ∧ p = joinPath parent e.name) := by
  intro parent scan quick st
  constructor
  · intro it hit
    cases scan with
    | none => exact absurd hit (List.not_mem_nil it)
    | some es =>
      have h1 : it ∈ (collectEntries parent quick es st.cache).1 :=
        mem_sortedItems _ _ hit
      obtain ⟨e, he, hname, hkept⟩ := collectEntries_items_mem parent quick es st.cache it h1
      obtain ⟨hok, hdot, hcon, hsym⟩ := keptEntry_fields e hkept
      rw [hname]
      exact ⟨hdot, hcon⟩
  · intro es hscan p hp
    rw [collectEntries_paths parent quick es st.cache] at hp
    obtain ⟨e, he, rfl⟩ := List.mem_map.mp hp
    have h1 := List.mem_filter.mp he
    have h2 := List.mem_filter.mp h1.1
    obtain ⟨hok, hdot, hcon, hsym⟩ := keptEntry_fields e h2.2
    exact ⟨e, h2.1, hdot, hcon, hsym, h1.2, rfl⟩
